import Mathlib

/-!
Verification of the Diagnostic & Evaluation Engine
(`src/agents/insight_agent.py` and `src/agents/evaluator_agent.py`).

Shallow embedding conventions:
* Python floats are modelled by `PyNum`: finite values are exact rationals,
  and the two infinities (`float("inf")`, `float("-inf")`) are explicit
  constructors.  `NaN` never arises on the modelled code paths.
* `math.sqrt` and the normal-CDF expression `0.5*(1+erf(x/sqrt 2))` are not
  rational-valued; they are abstracted as parameters (`StatFns`), so every
  theorem below holds for any interpretation of them.
* Python's `round` is round-half-to-even (banker's rounding), modelled by
  `pyRoundInt` / `roundTo`.
* Dict lookups with optional keys are modelled with `Option`; `dict.get`
  defaults are the corresponding `Option.getD`.
-/

namespace Engine

/-- A Python float as it occurs in the engine: an exact rational, or an
infinity produced by `pct_change` on a zero baseline. -/
inductive PyNum where
  | fin (q : ℚ)
  | inf
  | ninf
deriving DecidableEq

/-- Python comparison `x < c` where `x` may be infinite and `c` is finite. -/
def pyLt : PyNum → ℚ → Bool
  | .fin q, c => decide (q < c)
  | .inf, _ => false
  | .ninf, _ => true

/-- Python comparison `c <= x` where `x` may be infinite and `c` is finite. -/
def pyGe : PyNum → ℚ → Bool
  | .fin q, c => decide (c ≤ q)
  | .inf, _ => true
  | .ninf, _ => false

/-- Python `abs` on a possibly-infinite float. -/
def pyAbs : PyNum → PyNum
  | .fin q => .fin |q|
  | .inf => .inf
  | .ninf => .inf

/-- Python `round(q)` on floats: round half to even (banker's rounding). -/
def pyRoundInt (q : ℚ) : ℤ :=
  let f := ⌊q⌋
  let r := q - f
  if r < 1/2 then f
  else if 1/2 < r then f + 1
  else if f % 2 = 0 then f else f + 1

/-- Python `round(q, n)`: banker's rounding to `n` decimal places. -/
def roundTo (n : ℕ) (q : ℚ) : ℚ :=
  (pyRoundInt (q * 10 ^ n) : ℚ) / 10 ^ n

/-- Python `round(x, n)` lifted to possibly-infinite values: in Python,
`round(float("inf"), 3)` is still `inf`. -/
def pyRoundN (n : ℕ) : PyNum → PyNum
  | .fin q => .fin (roundTo n q)
  | .inf => .inf
  | .ninf => .ninf

/-- Function `pct_change` from `insight_agent.py`: percent change from `a` to `b`;
returns `float("inf")` when `a = 0` and `b ≠ 0`, `0.0` when both are `0`. -/
def pct_change (a b : ℚ) : PyNum :=
  if a = 0 then (if b ≠ 0 then .inf else .fin 0)
  else .fin ((b - a) / |a| * 100)

/-- Function `confidence_from_p` from `insight_agent.py`: maps a p-value to a
confidence in `[0,1]`. -/
def confidence_from_p (p : ℚ) : ℚ :=
  if p ≤ 0 then 1 else max 0 (1 - min 1 (p * 10))

/-- Function `severity_label` from `insight_agent.py`, on a possibly-infinite
percent change (`abs(inf) >= 50` holds in Python, so `inf` is critical). -/
def severity_label (pct : PyNum) : String :=
  if pyGe (pyAbs pct) 50 then "critical"
  else if pyGe (pyAbs pct) 25 then "high"
  else if pyGe (pyAbs pct) 10 then "medium"
  else "low"

/-- Abstract interpretations of the two real-valued library functions used
by `proportion_z_test`: `sqrtQ` models `math.sqrt`, and `phi` models the
standard normal CDF `x ↦ 0.5*(1 + erf(x / math.sqrt 2))`. -/
structure StatFns where
  sqrtQ : ℚ → ℚ
  phi : ℚ → ℚ

/-- Function `proportion_z_test` from `insight_agent.py`: two-proportion z-test for
`p2 - p1`, returning `(z, two-sided p-value)`; `(0, 1)` when either sample
size is nonpositive. -/
def proportion_z_test (F : StatFns) (clicks1 impr1 clicks2 impr2 : ℚ) : ℚ × ℚ :=
  if impr1 ≤ 0 ∨ impr2 ≤ 0 then (0, 1)
  else
    let p1 := clicks1 / impr1
    let p2 := clicks2 / impr2
    let p_pool := if 0 < impr1 + impr2 then (clicks1 + clicks2) / (impr1 + impr2) else 0
    let se := F.sqrtQ (max (1 / 1000000000) (p_pool * (1 - p_pool) * (1 / impr1 + 1 / impr2)))
    let z := if 0 < se then (p2 - p1) / se else 0
    (z, 2 * (1 - F.phi |z|))

/-- Segment CTR: `clicks/impressions if impressions > 0 else 0.0`. -/
def ctrOf (clicks impr : ℚ) : ℚ := if 0 < impr then clicks / impr else 0

/-- Segment ROAS: `revenue/spend if spend > 0 else 0.0`. -/
def roasOf (rev spend : ℚ) : ℚ := if 0 < spend then rev / spend else 0

/-- One row of the merged baseline/current per-segment aggregate table built
in `generate_insights` (suffixes `_base` / `_curr`, missing sides filled
with 0 by the outer merge). -/
structure SegRow where
  name : String
  bImpr : ℚ
  bClicks : ℚ
  bSpend : ℚ
  bRev : ℚ
  cImpr : ℚ
  cClicks : ℚ
  cSpend : ℚ
  cRev : ℚ
deriving DecidableEq

/-- A driver record as appended to `result["drivers"]` by
`generate_insights` (the cosmetic `evidence_note` string is omitted; CTR
drivers carry `z`/`p_value`, ROAS drivers do not). -/
structure Driver where
  segment : String
  metric : String
  baseline : ℚ
  current : ℚ
  delta_pct : PyNum
  z : Option ℚ
  p_value : Option ℚ
  severity : String
  confidence : ℚ
  hypothesis : String
deriving DecidableEq

/-- The relative CTR change of one segment row: `pct_change(base_ctr_seg,
curr_ctr_seg)`. -/
def ctrPctOf (r : SegRow) : PyNum :=
  pct_change (ctrOf r.bClicks r.bImpr) (ctrOf r.cClicks r.cImpr)

/-- The relative ROAS change of one segment row: `pct_change(base_roas_seg,
curr_roas_seg)`. -/
def roasPctOf (r : SegRow) : PyNum :=
  pct_change (roasOf r.bRev r.bSpend) (roasOf r.cRev r.cSpend)

/-- The CTR driver dict appended for a segment row (its fields are exactly
the dict built at `insight_agent.py` lines 207-219). -/
def ctrDriverOf (F : StatFns) (r : SegRow) : Driver :=
  { segment := "adset:" ++ r.name
    metric := "ctr"
    baseline := roundTo 6 (ctrOf r.bClicks r.bImpr)
    current := roundTo 6 (ctrOf r.cClicks r.cImpr)
    delta_pct := pyRoundN 3 (ctrPctOf r)
    z := some (proportion_z_test F r.bClicks r.bImpr r.cClicks r.cImpr).1
    p_value := some (proportion_z_test F r.bClicks r.bImpr r.cClicks r.cImpr).2
    severity := severity_label (ctrPctOf r)
    confidence := roundTo 3 (confidence_from_p
      (proportion_z_test F r.bClicks r.bImpr r.cClicks r.cImpr).2)
    hypothesis := if pyLt (ctrPctOf r) (-15) then "creative_performance_or_hook_issue"
                  else "creative_attention_drop" }

/-- The ROAS driver dict appended for a segment row (lines 225-235);
`roasConf` is the run-global ROAS confidence. -/
def roasDriverOf (roasConf : ℚ) (r : SegRow) : Driver :=
  { segment := "adset:" ++ r.name
    metric := "roas"
    baseline := roundTo 3 (roasOf r.bRev r.bSpend)
    current := roundTo 3 (roasOf r.cRev r.cSpend)
    delta_pct := pyRoundN 3 (roasPctOf r)
    z := none
    p_value := none
    severity := severity_label (roasPctOf r)
    confidence := roundTo 3 roasConf
    hypothesis := if pyLt (roasPctOf r) (-30) then "landing_or_offer_issue"
                  else "creative_positioning_or_offer" }

/-- The per-segment body of the driver loop in `generate_insights`
(lines 183-235): emits a CTR driver on a >5% relative CTR drop and a ROAS
driver on a >10% relative ROAS drop (each guarded by the nonzero
impressions/spend sum check), in that order.  `roasConf` is the run-global
ROAS confidence computed once before the loop. -/
def segDrivers (F : StatFns) (roasConf : ℚ) (r : SegRow) : List Driver :=
  (if 0 < r.bImpr + r.cImpr then
    (if pyLt (ctrPctOf r) (-5) then [ctrDriverOf F r] else [])
   else []) ++
  (if 0 < r.bSpend + r.cSpend then
    (if pyLt (roasPctOf r) (-10) then [roasDriverOf roasConf r] else [])
   else [])

/-- Whole-dataset sums over the baseline and current windows, as computed
before the global CTR/ROAS comparison in `generate_insights`. -/
structure GlobalAgg where
  bImpr : ℚ
  bClicks : ℚ
  cImpr : ℚ
  cClicks : ℚ
  bSpend : ℚ
  bRev : ℚ
  cSpend : ℚ
  cRev : ℚ
deriving DecidableEq

/-- The global CTR z-test `(z_ctr, p_ctr)` of `generate_insights`. -/
def globalCtrTest (F : StatFns) (g : GlobalAgg) : ℚ × ℚ :=
  proportion_z_test F g.bClicks g.bImpr g.cClicks g.cImpr

/-- The `trend` metadata dict built by `generate_insights` (lines 160-171). -/
structure Trend where
  ctr_baseline : ℚ
  ctr_current : ℚ
  ctr_delta_pct : PyNum
  ctr_z : ℚ
  ctr_p : ℚ
  roas_baseline : ℚ
  roas_current : ℚ
  roas_delta_pct : PyNum
  roas_confidence : ℚ
deriving DecidableEq

/-- Construction of the `trend` metadata: global baseline/current CTR and
ROAS with their percent deltas (rounded to 3 places), the CTR z-test, and
the ROAS confidence reused from the global CTR p-value. -/
def mkTrend (F : StatFns) (g : GlobalAgg) : Trend :=
  let baseCtr := ctrOf g.bClicks g.bImpr
  let currCtr := ctrOf g.cClicks g.cImpr
  let zp := globalCtrTest F g
  let baseRoas := roasOf g.bRev g.bSpend
  let currRoas := roasOf g.cRev g.cSpend
  { ctr_baseline := baseCtr
    ctr_current := currCtr
    ctr_delta_pct := pyRoundN 3 (pct_change baseCtr currCtr)
    ctr_z := zp.1
    ctr_p := zp.2
    roas_baseline := baseRoas
    roas_current := currRoas
    roas_delta_pct := pyRoundN 3 (pct_change baseRoas currRoas)
    roas_confidence := roundTo 3 (confidence_from_p zp.2) }

/-- The full driver list of a run: `roas_conf = confidence_from_p(p_ctr)`
is computed once from the global CTR test and shared by every ROAS driver;
segments are processed in table order. -/
def generateDrivers (F : StatFns) (g : GlobalAgg) (rows : List SegRow) : List Driver :=
  let roasConf := confidence_from_p (globalCtrTest F g).2
  rows.flatMap (segDrivers F roasConf)

/-! ## Evaluator (`evaluator_agent.py`) -/

/-- A Python value that may appear under `delta_pct` / `confidence` in an
incoming driver dict: either something `float(...)` converts (a number) or
something it raises on (`None`, a non-numeric string, a container...). -/
inductive PyVal where
  | num (n : PyNum)
  | nonNumeric
deriving DecidableEq

/-- Python `float(v)`: succeeds on numbers, raises otherwise. -/
def floatOf : PyVal → Except Unit PyNum
  | .num n => .ok n
  | .nonNumeric => .error ()

/-- An incoming driver dict as consumed by `EvaluatorAgent._validate_driver`
(each field is `Option`al, mirroring `dict.get`). -/
structure InDriver where
  segment : Option String
  metric : Option String
  delta_pct : Option PyVal
  confidence : Option PyVal
  severity : Option String
  hypothesis : Option String
deriving DecidableEq

/-- Function `_score_severity`: fixed table lookup with default `0.2`. -/
def score_severity (sev : String) : ℚ :=
  if sev = "critical" then 1
  else if sev = "high" then 8/10
  else if sev = "medium" then 1/2
  else if sev = "low" then 1/5
  else 1/5

/-- Clamp a rational to `[0,1]` (`max(0.0, min(1.0, v))`). -/
def clamp01 (q : ℚ) : ℚ := max 0 (min 1 q)

/-- Python `max(0.0, min(1.0, v))` on a possibly-infinite float. -/
def pyClamp01 : PyNum → ℚ
  | .fin q => clamp01 q
  | .inf => 1
  | .ninf => 0

/-- Python `min(1.0, abs(delta) / 100.0)` on a possibly-infinite delta. -/
def minAbsDiv100 : PyNum → ℚ
  | .fin q => min 1 (|q| / 100)
  | .inf => 1
  | .ninf => 1

/-- Function `_combine_scores` specialised to its two call sites (always exactly two
arguments): clamp each argument to `[0,1]` and average. -/
def combine2 (a b : ℚ) : ℚ := (clamp01 a + clamp01 b) / 2

/-- A driver evaluation as produced by `_validate_driver`.  `evSegment` and
`evMetric` are the `evidence["segment"]`/`evidence["metric"]` entries
(`none` models both a missing key and Python `None`); `impact_score` is
`none` on the degraded error path, where the key is absent from the dict. -/
structure DriverEval where
  hypothesis : String
  evSegment : Option String
  evMetric : Option String
  impact : String
  impact_score : Option ℚ
  confidence : ℚ
deriving DecidableEq

/-- The degraded evaluation returned when `_validate_driver` catches an
exception: `{"hypothesis": "error", "evidence": {}, "impact": "low",
"confidence": 0.0}`. -/
def degradedEval : DriverEval :=
  { hypothesis := "error", evSegment := none, evMetric := none,
    impact := "low", impact_score := none, confidence := 0 }

/-- Method `EvaluatorAgent._validate_driver`: clamp the driver's confidence,
look up its severity score, and blend them into an impact score and a
final confidence (each stored rounded to 3 places); any conversion failure
(`float(...)` raising) is caught and yields `degradedEval`. -/
def validate_driver (d : InDriver) : DriverEval :=
  match floatOf (d.delta_pct.getD (.num (.fin 0))),
        floatOf (d.confidence.getD (.num (.fin 0))) with
  | .ok delta, .ok conf0 =>
    let sevScore := score_severity (d.severity.getD "low")
    let conf := pyClamp01 conf0
    let impactScore := combine2 (minAbsDiv100 delta) sevScore
    let finalConfidence := combine2 conf (1/2 + 1/2 * sevScore)
    { hypothesis := d.hypothesis.getD "unspecified"
      evSegment := d.segment
      evMetric := some (d.metric.getD "ctr")
      impact := if 1/2 ≤ impactScore then "high"
                else if 1/4 ≤ impactScore then "medium" else "low"
      impact_score := some (roundTo 3 impactScore)
      confidence := roundTo 3 finalConfidence }
  | _, _ => degradedEval

/-- An externally supplied creative variant (opaque record; every field is
a `dict.get`-style optional). -/
structure Variant where
  id : Option String
  expected_metric : Option String
  target_segment : Option String
deriving DecidableEq

/-- A per-variant score record from `_score_variant` (or the neutral
fallback in `evaluate`). -/
structure VariantScore where
  variant_id : Option String
  score : ℚ
  explanation : String
deriving DecidableEq

/-- The explanation string `f"match={m}, impact={i}, confidence={c}"`
(numeric rendering modelled by Lean's rational printer). -/
def explanationOf (m i c : ℚ) : String :=
  "match=" ++ toString m ++ ", impact=" ++ toString i ++ ", confidence=" ++ toString c

/-- Method `EvaluatorAgent._score_variant`: metric-match component blended with
the matched evaluation's impact and confidence, clamped into `[0,100]` and
rounded to 2 places. -/
def score_variant (v : Variant) (de : DriverEval) : VariantScore :=
  let mtch : ℚ := if v.expected_metric = de.evMetric then 1 else 1/2
  let impact := de.impact_score.getD 0
  let conf := de.confidence
  let score0 := 6/10 * mtch + 4/10 * impact * conf
  let score := max 0 (min 100 (score0 * 100))
  { variant_id := v.id
    score := roundTo 2 score
    explanation := explanationOf mtch impact conf }

/-- Python substring containment on character lists. -/
def subList (n : List Char) : List Char → Bool
  | [] => n.isEmpty
  | c :: t => n.isPrefixOf (c :: t) || subList n t

/-- Python's `needle in hay` on strings. -/
def strIn (needle hay : String) : Bool := subList needle.toList hay.toList

/-- The matching test of the variant loop in `evaluate` (line 129):
`seg and seg in v.get("target_segment", "")` — the evaluation's segment
must be truthy (present and non-empty) and a substring of the variant's
target segment. -/
def matchPred (v : Variant) (de : DriverEval) : Bool :=
  match de.evSegment with
  | some s => !s.isEmpty && strIn s (v.target_segment.getD "")
  | none => false

/-- The actionable recommendation record built from the top-ranked
variant. -/
structure Recommendation where
  action : String
  variant_id : Option String
  expected_score : ℚ
  rationale : String
deriving DecidableEq

/-- Insert into a descending-by-score list, after any earlier element of
equal score (matching the stability of Python's `sorted(..., reverse=True)`
for elements inserted later in input order). -/
def insertDesc (x : VariantScore) : List VariantScore → List VariantScore
  | [] => [x]
  | y :: ys => if y.score ≤ x.score then x :: y :: ys else y :: insertDesc x ys

/-- Stable descending sort by score, modelling
`sorted(variant_analysis, key=lambda x: x["score"], reverse=True)`. -/
def sortDesc : List VariantScore → List VariantScore
  | [] => []
  | x :: xs => insertDesc x (sortDesc xs)

/-- The `creative_output` argument of `evaluate`: a variant list plus the
optional `meta.n_variants` count override. -/
structure CreativeOutput where
  variants : List Variant
  metaNVariants : Option ℕ
deriving DecidableEq

/-- The structured evaluation returned by `evaluate`.  `base`/`nVariants`
model the `components` dict; `avgVariant` is the internal `avg_variant`
blending value (logged, not serialized), exposed here so theorems can name
it. -/
structure EvalResult where
  score : ℤ
  base : ℚ
  nVariants : ℕ
  avgVariant : ℚ
  hypothesis_evaluations : List DriverEval
  variant_analysis : List VariantScore
  recommendations : List Recommendation
deriving DecidableEq

/-- Value `n_variants`: the `meta.n_variants` override when present, else the
length of the variant list. -/
def nVariantsOf (co : CreativeOutput) : ℕ :=
  co.metaNVariants.getD co.variants.length

/-- The `base_score` of `evaluate`: `40`, plus `20` if any drivers exist,
plus `min(40, n_variants * 2)`. -/
def baseScoreOf (co : CreativeOutput) (drivers : List InDriver) : ℚ :=
  40 + (if drivers = [] then 0 else 20) + min 40 (2 * (nVariantsOf co : ℚ))

/-- The `variant_analysis` list of `evaluate`: when both drivers and
variants exist, each variant is scored against the first driver evaluation
whose segment passes `matchPred` (falling back to the first evaluation in
list order); otherwise every variant gets the neutral 25 / `"no drivers"`
record. -/
def variantAnalysisOf (co : CreativeOutput) (drivers : List InDriver) : List VariantScore :=
  let driverEvals := drivers.map validate_driver
  if drivers = [] ∨ co.variants = [] then
    co.variants.map (fun v => { variant_id := v.id, score := 25, explanation := "no drivers" })
  else
    co.variants.filterMap (fun v =>
      ((driverEvals.find? (fun de => matchPred v de)).orElse (fun _ => driverEvals.head?)).map
        (fun de => score_variant v de))

/-- The internal `avg_variant` blending value of `evaluate`: `25.0` on the
no-drivers/no-variants fallback path, else the mean of the variant scores
(`0.0` when nothing was scored). -/
def avgVariantOf (co : CreativeOutput) (drivers : List InDriver) : ℚ :=
  if drivers = [] ∨ co.variants = [] then 25
  else if variantAnalysisOf co drivers = [] then 0
  else ((variantAnalysisOf co drivers).map (fun va => va.score)).sum
        / (variantAnalysisOf co drivers).length

/-- Method `EvaluatorAgent.evaluate` (the non-exceptional body; every operation in
it is total once driver validation is modelled with `Except`): blends the
base score with the average variant score into the overall score
(`int(round(min(100, base*0.6 + avg*0.4)))`) and emits the single top
recommendation from the descending stable sort of the variant scores. -/
def evaluate (co : CreativeOutput) (drivers : List InDriver) : EvalResult :=
  { score := pyRoundInt (min 100 (baseScoreOf co drivers * (6/10) + avgVariantOf co drivers * (4/10)))
    base := baseScoreOf co drivers
    nVariants := nVariantsOf co
    avgVariant := avgVariantOf co drivers
    hypothesis_evaluations := drivers.map validate_driver
    variant_analysis := variantAnalysisOf co drivers
    recommendations :=
      match (sortDesc (variantAnalysisOf co drivers)).take 3 with
      | [] => []
      | top :: _ =>
        [{ action := "run_ab_test", variant_id := top.variant_id,
           expected_score := top.score, rationale := top.explanation }] }

/-! ## Helper lemmas -/

theorem pyRoundInt_ge (n : ℤ) (q : ℚ) (h : (n : ℚ) ≤ q) : n ≤ pyRoundInt q := by
  have hf : n ≤ ⌊q⌋ := Int.le_floor.mpr h
  simp only [pyRoundInt]
  split_ifs <;> omega

theorem pyRoundInt_le (n : ℤ) (q : ℚ) (h : q ≤ (n : ℚ)) : pyRoundInt q ≤ n := by
  have hf : ⌊q⌋ ≤ n := by
    have := Int.floor_le_floor h
    simpa using this
  have hfl : (⌊q⌋ : ℚ) ≤ q := Int.floor_le q
  simp only [pyRoundInt]
  split_ifs with h1 h2 h3
  · exact hf
  · have hlt : (⌊q⌋ : ℚ) < q := by linarith
    have : ⌊q⌋ < n := by
      have : (⌊q⌋ : ℚ) < (n : ℚ) := lt_of_lt_of_le hlt h
      exact_mod_cast this
    omega
  · exact hf
  · have hlt : (⌊q⌋ : ℚ) < q := by linarith
    have : ⌊q⌋ < n := by
      have : (⌊q⌋ : ℚ) < (n : ℚ) := lt_of_lt_of_le hlt h
      exact_mod_cast this
    omega

theorem roundTo_nonneg (k : ℕ) (q : ℚ) (h : 0 ≤ q) : 0 ≤ roundTo k q := by
  unfold roundTo
  have hpow : (0 : ℚ) < 10 ^ k := by positivity
  have h0 : (0 : ℤ) ≤ pyRoundInt (q * 10 ^ k) := by
    refine pyRoundInt_ge 0 _ ?_
    push_cast
    positivity
  have : (0 : ℚ) ≤ (pyRoundInt (q * 10 ^ k) : ℚ) := by exact_mod_cast h0
  positivity

theorem roundTo_le_int (k : ℕ) (m : ℤ) (q : ℚ) (h : q ≤ (m : ℚ)) : roundTo k q ≤ (m : ℚ) := by
  unfold roundTo
  have hpow : (0 : ℚ) < 10 ^ k := by positivity
  have h1 : pyRoundInt (q * 10 ^ k) ≤ m * 10 ^ k := by
    refine pyRoundInt_le _ _ ?_
    push_cast
    exact mul_le_mul_of_nonneg_right h (by positivity)
  have h2 : (pyRoundInt (q * 10 ^ k) : ℚ) ≤ (m : ℚ) * 10 ^ k := by
    have := h1
    exact_mod_cast this
  rw [div_le_iff₀ hpow]
  exact h2

theorem clamp01_nonneg (q : ℚ) : 0 ≤ clamp01 q := le_max_left 0 _

theorem clamp01_le_one (q : ℚ) : clamp01 q ≤ 1 := by
  unfold clamp01
  exact max_le (by norm_num) (min_le_left 1 q)

theorem clamp01_eq_self (q : ℚ) (h0 : 0 ≤ q) (h1 : q ≤ 1) : clamp01 q = q := by
  unfold clamp01
  rw [min_eq_right h1, max_eq_right h0]

theorem combine2_nonneg (a b : ℚ) : 0 ≤ combine2 a b := by
  unfold combine2
  have := clamp01_nonneg a
  have := clamp01_nonneg b
  linarith

theorem combine2_le_one (a b : ℚ) : combine2 a b ≤ 1 := by
  unfold combine2
  have := clamp01_le_one a
  have := clamp01_le_one b
  linarith

theorem pyClamp01_nonneg (x : PyNum) : 0 ≤ pyClamp01 x := by
  cases x <;> simp [pyClamp01, clamp01_nonneg]

theorem pyClamp01_le_one (x : PyNum) : pyClamp01 x ≤ 1 := by
  cases x <;> simp [pyClamp01, clamp01_le_one]

theorem minAbsDiv100_nonneg (x : PyNum) : 0 ≤ minAbsDiv100 x := by
  cases x with
  | fin q => simp only [minAbsDiv100]; positivity
  | inf => norm_num [minAbsDiv100]
  | ninf => norm_num [minAbsDiv100]

theorem minAbsDiv100_le_one (x : PyNum) : minAbsDiv100 x ≤ 1 := by
  cases x with
  | fin q => exact min_le_left 1 _
  | inf => norm_num [minAbsDiv100]
  | ninf => norm_num [minAbsDiv100]

theorem score_severity_nonneg (s : String) : 0 ≤ score_severity s := by
  unfold score_severity
  split_ifs <;> norm_num

theorem score_severity_le_one (s : String) : score_severity s ≤ 1 := by
  unfold score_severity
  split_ifs <;> norm_num

theorem score_variant_score_nonneg (v : Variant) (de : DriverEval) :
    0 ≤ (score_variant v de).score := by
  unfold score_variant
  exact roundTo_nonneg 2 _ (le_max_left 0 _)

theorem score_variant_score_le (v : Variant) (de : DriverEval) :
    (score_variant v de).score ≤ 100 := by
  unfold score_variant
  have h : max 0 (min 100 ((6/10 * (if v.expected_metric = de.evMetric then 1 else 1/2)
      + 4/10 * de.impact_score.getD 0 * de.confidence) * 100)) ≤ ((100 : ℤ) : ℚ) := by
    push_cast
    exact max_le (by norm_num) (min_le_left 100 _)
  have := roundTo_le_int 2 100 _ h
  push_cast at this
  exact this

theorem insertDesc_ne_nil (x : VariantScore) (l : List VariantScore) :
    insertDesc x l ≠ [] := by
  cases l with
  | nil => simp [insertDesc]
  | cons y ys =>
    simp only [insertDesc]
    split_ifs <;> simp

theorem sortDesc_eq_nil_iff (l : List VariantScore) : sortDesc l = [] ↔ l = [] := by
  cases l with
  | nil => simp [sortDesc]
  | cons x xs =>
    simp only [sortDesc]
    constructor
    · intro h
      exact absurd h (insertDesc_ne_nil x (sortDesc xs))
    · intro h
      exact absurd h (by simp)

theorem insertDesc_mem_iff (x y : VariantScore) (l : List VariantScore) :
    y ∈ insertDesc x l ↔ y = x ∨ y ∈ l := by
  induction l with
  | nil => simp [insertDesc]
  | cons z zs ih =>
    simp only [insertDesc]
    split_ifs with h
    · simp [List.mem_cons]
    · simp only [List.mem_cons, ih]
      tauto

theorem sortDesc_mem_iff (y : VariantScore) (l : List VariantScore) :
    y ∈ sortDesc l ↔ y ∈ l := by
  induction l with
  | nil => simp [sortDesc]
  | cons x xs ih =>
    simp only [sortDesc, insertDesc_mem_iff, ih, List.mem_cons]

/-- The head of the stable descending sort is the first maximum of the
input list: the list splits as `pre ++ h :: post` with every element of
`pre` strictly below `h` (stability of ties) and every element at most `h`
(maximality). -/
theorem sortDesc_head_first_max (l : List VariantScore) (h : VariantScore)
    (hh : (sortDesc l).head? = some h) :
    ∃ pre post, l = pre ++ h :: post ∧ (∀ y ∈ pre, y.score < h.score) ∧
      ∀ y ∈ l, y.score ≤ h.score := by
  induction l generalizing h with
  | nil => simp [sortDesc] at hh
  | cons x xs ih =>
    simp only [sortDesc] at hh
    cases hsx : sortDesc xs with
    | nil =>
      have hxs : xs = [] := (sortDesc_eq_nil_iff xs).mp hsx
      rw [hsx] at hh
      simp only [insertDesc, List.head?] at hh
      obtain rfl : x = h := by exact Option.some.inj hh
      exact ⟨[], [], by simp [hxs], by simp, by simp [hxs]⟩
    | cons y ys =>
      rw [hsx] at hh
      simp only [insertDesc] at hh
      have hymem : ∀ z ∈ xs, z.score ≤ y.score := by
        intro z hz
        obtain ⟨pre', post', _, _, hmax'⟩ := ih y (by rw [hsx]; rfl)
        exact hmax' z hz
      split_ifs at hh with hcmp
      · obtain rfl : x = h := by exact Option.some.inj hh
        refine ⟨[], xs, by simp, by simp, ?_⟩
        intro z hz
        rcases List.mem_cons.mp hz with rfl | hz'
        · exact le_refl _
        · exact le_trans (hymem z hz') hcmp
      · have hyh : y = h := by
          simp only [List.head?] at hh
          exact Option.some.inj hh
        obtain ⟨pre', post', heq, hpre', hmax'⟩ := ih y (by rw [hsx]; rfl)
        refine ⟨x :: pre', post', by rw [heq, hyh]; rfl, ?_, ?_⟩
        · intro z hz
          rw [← hyh]
          rcases List.mem_cons.mp hz with rfl | hz'
          · exact lt_of_not_le hcmp
          · exact hpre' z hz'
        · intro z hz
          rw [← hyh]
          rcases List.mem_cons.mp hz with rfl | hz'
          · exact le_of_lt (lt_of_not_le hcmp)
          · exact hmax' z hz'

theorem mem_ite_nil_left {α : Type} {c : Prop} [Decidable c] {l : List α} {a : α}
    (h : a ∈ (if c then l else [])) : a ∈ l := by
  split_ifs at h with hc
  · exact h
  · exact absurd h (List.not_mem_nil a)

theorem mem_ite_nil_iff {α : Type} {c : Prop} [Decidable c] {l : List α} {a : α} :
    a ∈ (if c then l else []) ↔ c ∧ a ∈ l := by
  split_ifs with hc
  · simp [hc]
  · simp [hc]

theorem filterMap_eq_map_of_some {α β : Type} (f : α → Option β) (g : α → β)
    (l : List α) (h : ∀ a ∈ l, f a = some (g a)) : l.filterMap f = l.map g := by
  induction l with
  | nil => simp
  | cons x xs ih =>
    rw [List.filterMap_cons, h x (by simp), List.map_cons,
      ih (fun a ha => h a (List.mem_cons_of_mem x ha))]

/-- Every element of `variant_analysis` has its score in `[0, 100]`. -/
theorem variantAnalysis_score_bounds (co : CreativeOutput) (drivers : List InDriver) :
    ∀ va ∈ variantAnalysisOf co drivers, 0 ≤ va.score ∧ va.score ≤ 100 := by
  intro va hva
  unfold variantAnalysisOf at hva
  split_ifs at hva with hcond
  · obtain ⟨v, _, rfl⟩ := List.mem_map.mp hva
    norm_num
  · obtain ⟨v, _, hsome⟩ := List.mem_filterMap.mp hva
    obtain ⟨de, _, rfl⟩ := Option.map_eq_some'.mp hsome
    exact ⟨score_variant_score_nonneg v de, score_variant_score_le v de⟩

/-- The internal `avg_variant` value lies in `[0, 100]`. -/
theorem avgVariant_bounds (co : CreativeOutput) (drivers : List InDriver) :
    0 ≤ avgVariantOf co drivers ∧ avgVariantOf co drivers ≤ 100 := by
  unfold avgVariantOf
  split_ifs with h1 h2
  · norm_num
  · norm_num
  · have hlen : 0 < ((variantAnalysisOf co drivers).length : ℚ) := by
      have : variantAnalysisOf co drivers ≠ [] := h2
      have hpos : 0 < (variantAnalysisOf co drivers).length := List.length_pos.mpr this
      exact_mod_cast hpos
    constructor
    · apply div_nonneg _ (le_of_lt hlen)
      apply List.sum_nonneg
      intro x hx
      obtain ⟨va, hva, rfl⟩ := List.mem_map.mp hx
      exact (variantAnalysis_score_bounds co drivers va hva).1
    · rw [div_le_iff₀ hlen]
      have hbd : ((variantAnalysisOf co drivers).map (fun va => va.score)).sum ≤
          ((variantAnalysisOf co drivers).map (fun va => va.score)).length • (100 : ℚ) := by
        apply List.sum_le_card_nsmul
        intro x hx
        obtain ⟨va, hva, rfl⟩ := List.mem_map.mp hx
        exact (variantAnalysis_score_bounds co drivers va hva).2
      rw [List.length_map] at hbd
      calc ((variantAnalysisOf co drivers).map (fun va => va.score)).sum
          ≤ (variantAnalysisOf co drivers).length • (100 : ℚ) := hbd
        _ = 100 * ((variantAnalysisOf co drivers).length : ℚ) := by
            rw [nsmul_eq_mul]; ring

/-- The `base_score` lies in `[40, 100]`. -/
theorem baseScore_bounds (co : CreativeOutput) (drivers : List InDriver) :
    40 ≤ baseScoreOf co drivers ∧ baseScoreOf co drivers ≤ 100 := by
  unfold baseScoreOf
  have h0 : (0 : ℚ) ≤ min 40 (2 * (nVariantsOf co : ℚ)) := by
    apply le_min (by norm_num)
    positivity
  have h40 : min 40 (2 * (nVariantsOf co : ℚ)) ≤ 40 := min_le_left _ _
  split_ifs <;> constructor <;> linarith

/-- The overall score of `evaluate` lies in `[0, 100]` (shared by the
error-handling and invariant claims). -/
theorem evaluate_score_bounds (co : CreativeOutput) (drivers : List InDriver) :
    0 ≤ (evaluate co drivers).score ∧ (evaluate co drivers).score ≤ 100 := by
  have hb := baseScore_bounds co drivers
  have ha := avgVariant_bounds co drivers
  have harg0 : (0 : ℚ) ≤ min 100 (baseScoreOf co drivers * (6/10) + avgVariantOf co drivers * (4/10)) := by
    apply le_min (by norm_num)
    nlinarith [hb.1, ha.1]
  have harg1 : min 100 (baseScoreOf co drivers * (6/10) + avgVariantOf co drivers * (4/10)) ≤ 100 :=
    min_le_left _ _
  constructor
  · exact pyRoundInt_ge 0 _ (by exact_mod_cast harg0)
  · exact pyRoundInt_le 100 _ (by exact_mod_cast harg1)

/-! ## Claim theorems -/

/-- Claim C2 (code evaluated at the failing input): `pct_change(0,0) = 0`
holds, but the `a=0 ∧ b≠0` case yields the unbounded `float("inf")`
sentinel and it is NOT mapped to a bounded marker before serialization:
on a dataset whose baseline window has 1000 impressions and 0 clicks and
whose current window has 1000 impressions and 10 clicks, the serialized
trend metadata field `ctr_delta_pct` is infinite. -/
theorem C2_infinite_delta_leaks (F : StatFns) :
    pct_change 0 0 = PyNum.fin 0 ∧
    pct_change 0 5 = PyNum.inf ∧
    (mkTrend F ⟨1000, 0, 1000, 10, 100, 100, 100, 100⟩).ctr_delta_pct = PyNum.inf := by
  refine ⟨by norm_num [pct_change], by norm_num [pct_change], ?_⟩
  norm_num [mkTrend, ctrOf, pct_change, pyRoundN]

/-- Claim C7: the two-proportion z-test returns `z = 0` on equal
proportions (in particular `z(100,1000,100,1000) = 0`) and when either
sample size is 0; swapping the samples negates `z`; and the p-value is
`2·(1 - Φ(|z|))` with the pooled proportion and the `1e-9`-floored
standard error (for any CDF interpretation with `Φ(0) = 1/2`). -/
theorem C7_z_test_properties (F : StatFns) (c1 n1 c2 n2 : ℚ) (hphi : F.phi 0 = 1/2) :
    (proportion_z_test F 100 1000 100 1000).1 = 0 ∧
    (c1 / n1 = c2 / n2 → (proportion_z_test F c1 n1 c2 n2).1 = 0) ∧
    ((n1 = 0 ∨ n2 = 0) → (proportion_z_test F c1 n1 c2 n2).1 = 0) ∧
    (proportion_z_test F c2 n2 c1 n1).1 = -(proportion_z_test F c1 n1 c2 n2).1 ∧
    (proportion_z_test F c1 n1 c2 n2).2 =
      2 * (1 - F.phi |(proportion_z_test F c1 n1 c2 n2).1|) := by
  refine ⟨?_, ?_, ?_, ?_, ?_⟩
  · simp only [proportion_z_test]
    norm_num
  · intro hp
    simp only [proportion_z_test]
    by_cases hg : n1 ≤ 0 ∨ n2 ≤ 0
    · rw [if_pos hg]
    · rw [if_neg hg]
      simp only [hp, sub_self, zero_div]
      split_ifs <;> rfl
  · rintro (h | h) <;> simp [proportion_z_test, h]
  · by_cases hg : n1 ≤ 0 ∨ n2 ≤ 0
    · have hg' : n2 ≤ 0 ∨ n1 ≤ 0 := Or.comm.mp hg
      simp only [proportion_z_test, if_pos hg, if_pos hg']
      norm_num
    · have hg' : ¬(n2 ≤ 0 ∨ n1 ≤ 0) := fun h => hg (Or.comm.mp h)
      simp only [proportion_z_test, if_neg hg, if_neg hg']
      rw [show n2 + n1 = n1 + n2 from add_comm _ _,
        show c2 + c1 = c1 + c2 from add_comm _ _,
        show 1 / n2 + 1 / n1 = 1 / n1 + 1 / n2 from add_comm _ _]
      split_ifs <;> ring
  · by_cases hg : n1 ≤ 0 ∨ n2 ≤ 0
    · simp only [proportion_z_test, if_pos hg]
      norm_num [hphi]
    · simp only [proportion_z_test, if_neg hg]

/-- Claim C9: the overall evaluation score is in `[0, 100]` for every
combination of drivers and variants. -/
theorem C9_overall_score_in_range (co : CreativeOutput) (drivers : List InDriver) :
    0 ≤ (evaluate co drivers).score ∧ (evaluate co drivers).score ≤ 100 :=
  evaluate_score_bounds co drivers

/-- Witness for C7 at a concrete instantiation (`Φ` interpreted as the
constant `1/2` at `0`, samples `(1,2)` and `(2,4)` with equal
proportions). -/
theorem C7_z_test_properties_witness :
    (⟨fun _ => 0, fun _ => 1/2⟩ : StatFns).phi 0 = 1/2 ∧
    ((proportion_z_test ⟨fun _ => 0, fun _ => 1/2⟩ 100 1000 100 1000).1 = 0 ∧
     ((1 : ℚ) / 2 = 2 / 4 → (proportion_z_test ⟨fun _ => 0, fun _ => 1/2⟩ 1 2 2 4).1 = 0) ∧
     (((2 : ℚ) = 0 ∨ (4 : ℚ) = 0) → (proportion_z_test ⟨fun _ => 0, fun _ => 1/2⟩ 1 2 2 4).1 = 0) ∧
     (proportion_z_test ⟨fun _ => 0, fun _ => 1/2⟩ 2 4 1 2).1 =
       -(proportion_z_test ⟨fun _ => 0, fun _ => 1/2⟩ 1 2 2 4).1 ∧
     (proportion_z_test ⟨fun _ => 0, fun _ => 1/2⟩ 1 2 2 4).2 =
       2 * (1 - (⟨fun _ => 0, fun _ => 1/2⟩ : StatFns).phi
         |(proportion_z_test ⟨fun _ => 0, fun _ => 1/2⟩ 1 2 2 4).1|)) :=
  ⟨rfl, C7_z_test_properties ⟨fun _ => 0, fun _ => 1/2⟩ 1 2 2 4 rfl⟩

/-- Claim C8: an exception inside per-driver evaluation (modelled as a
failing `float(...)` conversion) never propagates — it yields the degraded
evaluation with hypothesis `"error"` and zero confidence/impact — and
`evaluate` is total: it returns a structured result containing one
evaluation per driver and an overall score in `[0, 100]` for every
input. -/
theorem C8_exception_degrades (d : InDriver) (co : CreativeOutput) (drivers : List InDriver)
    (herr : floatOf (d.delta_pct.getD (.num (.fin 0))) = .error () ∨
            floatOf (d.confidence.getD (.num (.fin 0))) = .error ()) :
    validate_driver d = degradedEval ∧
    degradedEval.hypothesis = "error" ∧
    degradedEval.confidence = 0 ∧
    degradedEval.impact_score = none ∧
    (evaluate co drivers).hypothesis_evaluations = drivers.map validate_driver ∧
    0 ≤ (evaluate co drivers).score ∧ (evaluate co drivers).score ≤ 100 := by
  refine ⟨?_, rfl, rfl, rfl, rfl,
    (evaluate_score_bounds co drivers).1, (evaluate_score_bounds co drivers).2⟩
  unfold validate_driver
  rcases hA : floatOf (d.delta_pct.getD (.num (.fin 0))) with u | nd <;>
    rcases hB : floatOf (d.confidence.getD (.num (.fin 0))) with u2 | nc
  · rfl
  · rfl
  · rfl
  · exfalso
    rcases herr with h | h
    · rw [hA] at h
      exact Except.noConfusion h
    · rw [hB] at h
      exact Except.noConfusion h

/-- Witness for C8: a driver whose `delta_pct` is not convertible to a
float degrades instead of aborting (empty creative output, that driver as
the whole batch). -/
theorem C8_exception_degrades_witness :
    (floatOf (((⟨none, none, some .nonNumeric, none, none, none⟩ : InDriver)).delta_pct.getD
        (.num (.fin 0))) = .error () ∨
     floatOf (((⟨none, none, some .nonNumeric, none, none, none⟩ : InDriver)).confidence.getD
        (.num (.fin 0))) = .error ()) ∧
    (validate_driver ⟨none, none, some .nonNumeric, none, none, none⟩ = degradedEval ∧
     degradedEval.hypothesis = "error" ∧
     degradedEval.confidence = 0 ∧
     degradedEval.impact_score = none ∧
     (evaluate ⟨[], none⟩ [⟨none, none, some .nonNumeric, none, none, none⟩]).hypothesis_evaluations =
       [(⟨none, none, some .nonNumeric, none, none, none⟩ : InDriver)].map validate_driver ∧
     0 ≤ (evaluate ⟨[], none⟩ [⟨none, none, some .nonNumeric, none, none, none⟩]).score ∧
     (evaluate ⟨[], none⟩ [⟨none, none, some .nonNumeric, none, none, none⟩]).score ≤ 100) :=
  ⟨Or.inl rfl,
    C8_exception_degrades ⟨none, none, some .nonNumeric, none, none, none⟩ ⟨[], none⟩
      [⟨none, none, some .nonNumeric, none, none, none⟩] (Or.inl rfl)⟩

/-- Claim C10: every ROAS driver of a run carries the same raw confidence,
namely `round(confidence_from_p(p_ctr), 3)` where `p_ctr` is the p-value
of the global (whole-dataset) CTR z-test; it never depends on the
segment's own statistics. -/
theorem C10_roas_confidence_is_global (F : StatFns) (g : GlobalAgg) (rows : List SegRow)
    (d : Driver) (hmem : d ∈ generateDrivers F g rows) (hroas : d.metric = "roas") :
    d.confidence = roundTo 3 (confidence_from_p (globalCtrTest F g).2) := by
  unfold generateDrivers at hmem
  rw [List.mem_flatMap] at hmem
  obtain ⟨r, _, hd⟩ := hmem
  simp only [segDrivers, List.mem_append] at hd
  rcases hd with hd | hd
  · have hd2 := mem_ite_nil_left (mem_ite_nil_left hd)
    rw [List.mem_singleton] at hd2
    subst hd2
    simp [ctrDriverOf] at hroas
  · have hd2 := mem_ite_nil_left (mem_ite_nil_left hd)
    rw [List.mem_singleton] at hd2
    subst hd2
    rfl

/-- A degenerate interpretation of `math.sqrt` / the normal CDF, used to
instantiate witnesses. -/
def zeroStats : StatFns := ⟨fun _ => 0, fun _ => 1/2⟩

/-- Claim C4: for a segment with both baseline and current aggregates
(non-negative impressions and spend, per the data model), a CTR driver is
emitted iff the relative CTR change is `< -5`% and a ROAS driver iff the
relative ROAS change is `< -10`%; every emitted driver's severity label
follows the `50/25/10` thresholds on the absolute percent change
(`severity(49.9)="high"`, `severity(50)="critical"`, `severity(9.9)="low"`,
`severity(10)="medium"`), and its hypothesis is the CTR `-15` /
ROAS `-30` threshold rule. -/
theorem C4_driver_thresholds (F : StatFns) (roasConf : ℚ) (r : SegRow)
    (hbi : 0 ≤ r.bImpr) (hci : 0 ≤ r.cImpr) (hbs : 0 ≤ r.bSpend) (hcs : 0 ≤ r.cSpend) :
    ((∃ d ∈ segDrivers F roasConf r, d.metric = "ctr") ↔
      pyLt (pct_change (ctrOf r.bClicks r.bImpr) (ctrOf r.cClicks r.cImpr)) (-5) = true) ∧
    ((∃ d ∈ segDrivers F roasConf r, d.metric = "roas") ↔
      pyLt (pct_change (roasOf r.bRev r.bSpend) (roasOf r.cRev r.cSpend)) (-10) = true) ∧
    (∀ d ∈ segDrivers F roasConf r, d.metric = "ctr" →
      d.severity = severity_label (pct_change (ctrOf r.bClicks r.bImpr) (ctrOf r.cClicks r.cImpr)) ∧
      d.hypothesis = if pyLt (pct_change (ctrOf r.bClicks r.bImpr) (ctrOf r.cClicks r.cImpr)) (-15)
        then "creative_performance_or_hook_issue" else "creative_attention_drop") ∧
    (∀ d ∈ segDrivers F roasConf r, d.metric = "roas" →
      d.severity = severity_label (pct_change (roasOf r.bRev r.bSpend) (roasOf r.cRev r.cSpend)) ∧
      d.hypothesis = if pyLt (pct_change (roasOf r.bRev r.bSpend) (roasOf r.cRev r.cSpend)) (-30)
        then "landing_or_offer_issue" else "creative_positioning_or_offer") ∧
    (∀ q : ℚ, severity_label (.fin q) =
      if 50 ≤ |q| then "critical" else if 25 ≤ |q| then "high"
      else if 10 ≤ |q| then "medium" else "low") ∧
    severity_label (.fin (499/10)) = "high" ∧ severity_label (.fin 50) = "critical" ∧
    severity_label (.fin (99/10)) = "low" ∧ severity_label (.fin 10) = "medium" := by
  have hlabel : ∀ q : ℚ, severity_label (.fin q) =
      if 50 ≤ |q| then "critical" else if 25 ≤ |q| then "high"
      else if 10 ≤ |q| then "medium" else "low" := by
    intro q
    simp only [severity_label, pyAbs, pyGe, decide_eq_true_eq]
  have hzero1 : ¬(0 < r.bImpr + r.cImpr) →
      pct_change (ctrOf r.bClicks r.bImpr) (ctrOf r.cClicks r.cImpr) = .fin 0 := by
    intro hg
    have hsum := not_lt.mp hg
    have h1 : r.bImpr = 0 := by linarith
    have h2 : r.cImpr = 0 := by linarith
    rw [ctrOf, ctrOf, h1, h2]
    norm_num [pct_change]
  have hzero2 : ¬(0 < r.bSpend + r.cSpend) →
      pct_change (roasOf r.bRev r.bSpend) (roasOf r.cRev r.cSpend) = .fin 0 := by
    intro hg
    have hsum := not_lt.mp hg
    have h1 : r.bSpend = 0 := by linarith
    have h2 : r.cSpend = 0 := by linarith
    rw [roasOf, roasOf, h1, h2]
    norm_num [pct_change]
  refine ⟨?_, ?_, ?_, ?_, hlabel, ?_, ?_, ?_, ?_⟩
  · constructor
    · rintro ⟨d, hdmem, hdm⟩
      simp only [segDrivers, List.mem_append, mem_ite_nil_iff, List.mem_singleton] at hdmem
      rcases hdmem with ⟨hg, hc, rfl⟩ | ⟨hg, hc, rfl⟩
      · exact hc
      · simp [roasDriverOf] at hdm
    · intro hc
      by_cases hg : 0 < r.bImpr + r.cImpr
      · refine ⟨ctrDriverOf F r, ?_, rfl⟩
        have hc' : pyLt (ctrPctOf r) (-5) = true := hc
        unfold segDrivers
        rw [if_pos hg, if_pos hc']
        exact List.mem_append_left _ (List.mem_singleton_self _)
      · exfalso
        rw [hzero1 hg] at hc
        simp only [pyLt, decide_eq_true_eq] at hc
        norm_num at hc
  · constructor
    · rintro ⟨d, hdmem, hdm⟩
      simp only [segDrivers, List.mem_append, mem_ite_nil_iff, List.mem_singleton] at hdmem
      rcases hdmem with ⟨hg, hc, rfl⟩ | ⟨hg, hc, rfl⟩
      · simp [ctrDriverOf] at hdm
      · exact hc
    · intro hc
      by_cases hg : 0 < r.bSpend + r.cSpend
      · refine ⟨roasDriverOf roasConf r, ?_, rfl⟩
        have hc' : pyLt (roasPctOf r) (-10) = true := hc
        unfold segDrivers
        rw [if_pos hg, if_pos hc']
        exact List.mem_append_right _ (List.mem_singleton_self _)
      · exfalso
        rw [hzero2 hg] at hc
        simp only [pyLt, decide_eq_true_eq] at hc
        norm_num at hc
  · rintro d hdmem hdm
    simp only [segDrivers, List.mem_append, mem_ite_nil_iff, List.mem_singleton] at hdmem
    rcases hdmem with ⟨hg, hc, rfl⟩ | ⟨hg, hc, rfl⟩
    · exact ⟨rfl, rfl⟩
    · simp [roasDriverOf] at hdm
  · rintro d hdmem hdm
    simp only [segDrivers, List.mem_append, mem_ite_nil_iff, List.mem_singleton] at hdmem
    rcases hdmem with ⟨hg, hc, rfl⟩ | ⟨hg, hc, rfl⟩
    · simp [ctrDriverOf] at hdm
    · exact ⟨rfl, rfl⟩
  · rw [hlabel, abs_of_nonneg (by norm_num : (0:ℚ) ≤ 499/10)]
    norm_num
  · rw [hlabel, abs_of_nonneg (by norm_num : (0:ℚ) ≤ 50)]
    norm_num
  · rw [hlabel, abs_of_nonneg (by norm_num : (0:ℚ) ≤ 99/10)]
    norm_num
  · rw [hlabel, abs_of_nonneg (by norm_num : (0:ℚ) ≤ 10)]
    norm_num

/-- Witness for C4: one segment, baseline CTR `0.02` (1000 impressions /
20 clicks), current CTR `0.01` (1000 impressions / 10 clicks), flat ROAS. -/
theorem C4_driver_thresholds_witness :
    ((0:ℚ) ≤ 1000 ∧ (0:ℚ) ≤ 1000 ∧ (0:ℚ) ≤ 1 ∧ (0:ℚ) ≤ 1) ∧
    (((∃ d ∈ segDrivers zeroStats 0 ⟨"a", 1000, 20, 1, 1, 1000, 10, 1, 1⟩, d.metric = "ctr") ↔
        pyLt (pct_change (ctrOf 20 1000) (ctrOf 10 1000)) (-5) = true) ∧
     ((∃ d ∈ segDrivers zeroStats 0 ⟨"a", 1000, 20, 1, 1, 1000, 10, 1, 1⟩, d.metric = "roas") ↔
        pyLt (pct_change (roasOf 1 1) (roasOf 1 1)) (-10) = true) ∧
     (∀ d ∈ segDrivers zeroStats 0 ⟨"a", 1000, 20, 1, 1, 1000, 10, 1, 1⟩, d.metric = "ctr" →
        d.severity = severity_label (pct_change (ctrOf 20 1000) (ctrOf 10 1000)) ∧
        d.hypothesis = if pyLt (pct_change (ctrOf 20 1000) (ctrOf 10 1000)) (-15)
          then "creative_performance_or_hook_issue" else "creative_attention_drop") ∧
     (∀ d ∈ segDrivers zeroStats 0 ⟨"a", 1000, 20, 1, 1, 1000, 10, 1, 1⟩, d.metric = "roas" →
        d.severity = severity_label (pct_change (roasOf 1 1) (roasOf 1 1)) ∧
        d.hypothesis = if pyLt (pct_change (roasOf 1 1) (roasOf 1 1)) (-30)
          then "landing_or_offer_issue" else "creative_positioning_or_offer") ∧
     (∀ q : ℚ, severity_label (.fin q) =
        if 50 ≤ |q| then "critical" else if 25 ≤ |q| then "high"
        else if 10 ≤ |q| then "medium" else "low") ∧
     severity_label (.fin (499/10)) = "high" ∧ severity_label (.fin 50) = "critical" ∧
     severity_label (.fin (99/10)) = "low" ∧ severity_label (.fin 10) = "medium") :=
  ⟨⟨by norm_num, by norm_num, by norm_num, by norm_num⟩,
    C4_driver_thresholds zeroStats 0 ⟨"a", 1000, 20, 1, 1, 1000, 10, 1, 1⟩
      (by norm_num) (by norm_num) (by norm_num) (by norm_num)⟩

/-- The claim-side expression `|delta_pct| / 100` on a possibly-infinite
delta, to be clamped to `[0,1]` by `pyClamp01`. -/
def absDeltaOver100 (x : PyNum) : PyNum :=
  match pyAbs x with
  | .fin q => .fin (q / 100)
  | .inf => .inf
  | .ninf => .inf

theorem pyClamp01_absDeltaOver100 (x : PyNum) :
    pyClamp01 (absDeltaOver100 x) = minAbsDiv100 x := by
  cases x with
  | fin q =>
    simp only [absDeltaOver100, pyAbs, pyClamp01, minAbsDiv100, clamp01]
    rw [max_eq_right]
    exact le_min (by norm_num) (by positivity)
  | inf => rfl
  | ninf => rfl

/-- Claim C6: for every driver whose `delta_pct`/`confidence` convert to
floats (including infinite or huge deltas, out-of-range confidences and
unknown severity labels), `impact_score = average(clamp(|delta|/100,0,1),
severity_score)` and `final_confidence = average(clamp(conf,0,1),
0.5 + 0.5*severity_score)` — stored rounded to 3 places — both lie in
`[0,1]`, the impact label follows the `0.5`/`0.25` thresholds on the
impact score, and `severity_score` comes from the fixed table with
default `0.2`. -/
theorem C6_impact_confidence (d : InDriver) (dn cn : PyNum)
    (hdn : floatOf (d.delta_pct.getD (.num (.fin 0))) = .ok dn)
    (hcn : floatOf (d.confidence.getD (.num (.fin 0))) = .ok cn) :
    (validate_driver d).impact_score =
      some (roundTo 3 ((pyClamp01 (absDeltaOver100 dn)
        + score_severity (d.severity.getD "low")) / 2)) ∧
    (validate_driver d).confidence =
      roundTo 3 ((pyClamp01 cn + (1/2 + 1/2 * score_severity (d.severity.getD "low"))) / 2) ∧
    0 ≤ (pyClamp01 (absDeltaOver100 dn) + score_severity (d.severity.getD "low")) / 2 ∧
    (pyClamp01 (absDeltaOver100 dn) + score_severity (d.severity.getD "low")) / 2 ≤ 1 ∧
    0 ≤ (pyClamp01 cn + (1/2 + 1/2 * score_severity (d.severity.getD "low"))) / 2 ∧
    (pyClamp01 cn + (1/2 + 1/2 * score_severity (d.severity.getD "low"))) / 2 ≤ 1 ∧
    (validate_driver d).impact =
      (if 1/2 ≤ (pyClamp01 (absDeltaOver100 dn) + score_severity (d.severity.getD "low")) / 2
       then "high"
       else if 1/4 ≤ (pyClamp01 (absDeltaOver100 dn) + score_severity (d.severity.getD "low")) / 2
       then "medium" else "low") ∧
    score_severity "critical" = 1 ∧ score_severity "high" = 8/10 ∧
    score_severity "medium" = 1/2 ∧ score_severity "low" = 1/5 ∧
    (∀ s : String, s ≠ "critical" → s ≠ "high" → s ≠ "medium" → s ≠ "low" →
      score_severity s = 1/5) := by
  have hsev0 := score_severity_nonneg (d.severity.getD "low")
  have hsev1 := score_severity_le_one (d.severity.getD "low")
  have hkeyI : combine2 (minAbsDiv100 dn) (score_severity (d.severity.getD "low")) =
      (pyClamp01 (absDeltaOver100 dn) + score_severity (d.severity.getD "low")) / 2 := by
    unfold combine2
    rw [clamp01_eq_self _ (minAbsDiv100_nonneg dn) (minAbsDiv100_le_one dn),
      clamp01_eq_self _ (score_severity_nonneg _) (score_severity_le_one _),
      pyClamp01_absDeltaOver100]
  have hkeyC : combine2 (pyClamp01 cn)
        (1/2 + 1/2 * score_severity (d.severity.getD "low")) =
      (pyClamp01 cn + (1/2 + 1/2 * score_severity (d.severity.getD "low"))) / 2 := by
    unfold combine2
    rw [clamp01_eq_self _ (pyClamp01_nonneg cn) (pyClamp01_le_one cn),
      clamp01_eq_self _ (by linarith) (by linarith)]
  have habs0 := pyClamp01_nonneg (absDeltaOver100 dn)
  have habs1 := pyClamp01_le_one (absDeltaOver100 dn)
  have hcn0 := pyClamp01_nonneg cn
  have hcn1 := pyClamp01_le_one cn
  have hval : validate_driver d =
      { hypothesis := d.hypothesis.getD "unspecified", evSegment := d.segment,
        evMetric := some (d.metric.getD "ctr"),
        impact := if 1/2 ≤ combine2 (minAbsDiv100 dn) (score_severity (d.severity.getD "low"))
          then "high"
          else if 1/4 ≤ combine2 (minAbsDiv100 dn) (score_severity (d.severity.getD "low"))
          then "medium" else "low",
        impact_score := some (roundTo 3 (combine2 (minAbsDiv100 dn)
          (score_severity (d.severity.getD "low")))),
        confidence := roundTo 3 (combine2 (pyClamp01 cn)
          (1/2 + 1/2 * score_severity (d.severity.getD "low"))) } := by
    unfold validate_driver
    rw [hdn, hcn]
  refine ⟨?_, ?_, by linarith, by linarith, by linarith, by linarith, ?_,
    by unfold score_severity; rw [if_pos rfl],
    by unfold score_severity; rw [if_neg (by decide), if_pos rfl],
    by unfold score_severity; rw [if_neg (by decide), if_neg (by decide), if_pos rfl],
    by unfold score_severity; rw [if_neg (by decide), if_neg (by decide), if_neg (by decide),
      if_pos rfl], ?_⟩
  · rw [hval, hkeyI]
  · rw [hval, hkeyC]
  · rw [hval, hkeyI]
  · intro s h1 h2 h3 h4
    unfold score_severity
    rw [if_neg h1, if_neg h2, if_neg h3, if_neg h4]

/-- Witness for C6 at an adversarial driver: infinite delta, confidence
`2.5` (out of range), unknown severity label `"weird"`. -/
theorem C6_impact_confidence_witness :
    (validate_driver ⟨none, none, some (.num .inf), some (.num (.fin (5/2))), some "weird", none⟩).impact_score =
      some (roundTo 3 ((pyClamp01 (absDeltaOver100 .inf)
        + score_severity (((some "weird").getD "low"))) / 2)) ∧
    (validate_driver ⟨none, none, some (.num .inf), some (.num (.fin (5/2))), some "weird", none⟩).confidence =
      roundTo 3 ((pyClamp01 (.fin (5/2)) + (1/2 + 1/2 * score_severity (((some "weird").getD "low")))) / 2) ∧
    0 ≤ (pyClamp01 (absDeltaOver100 .inf) + score_severity (((some "weird").getD "low"))) / 2 ∧
    (pyClamp01 (absDeltaOver100 .inf) + score_severity (((some "weird").getD "low"))) / 2 ≤ 1 ∧
    0 ≤ (pyClamp01 (.fin (5/2)) + (1/2 + 1/2 * score_severity (((some "weird").getD "low")))) / 2 ∧
    (pyClamp01 (.fin (5/2)) + (1/2 + 1/2 * score_severity (((some "weird").getD "low")))) / 2 ≤ 1 ∧
    (validate_driver ⟨none, none, some (.num .inf), some (.num (.fin (5/2))), some "weird", none⟩).impact =
      (if 1/2 ≤ (pyClamp01 (absDeltaOver100 .inf) + score_severity (((some "weird").getD "low"))) / 2
       then "high"
       else if 1/4 ≤ (pyClamp01 (absDeltaOver100 .inf) + score_severity (((some "weird").getD "low"))) / 2
       then "medium" else "low") ∧
    score_severity "critical" = 1 ∧ score_severity "high" = 8/10 ∧
    score_severity "medium" = 1/2 ∧ score_severity "low" = 1/5 ∧
    (∀ s : String, s ≠ "critical" → s ≠ "high" → s ≠ "medium" → s ≠ "low" →
      score_severity s = 1/5) :=
  C6_impact_confidence ⟨none, none, some (.num .inf), some (.num (.fin (5/2))), some "weird", none⟩
    .inf (.fin (5/2)) rfl rfl

/-- Counterexample to claim C1: with zero drivers and zero variants the
fallback branch of `evaluate` still sets `avg_variant = 25.0`, so the
overall score is `round(0.6*40 + 0.4*25) = 34`, not `24`, and the internal
average is `25`, not `0`. -/
theorem C1_zero_zero_counterexample :
    (evaluate ⟨[], none⟩ []).score = 34 ∧
    (evaluate ⟨[], none⟩ []).avgVariant = 25 ∧
    (evaluate ⟨[], none⟩ []).score ≠ 24 ∧
    (evaluate ⟨[], none⟩ []).avgVariant ≠ 0 := by
  have hs : (evaluate ⟨[], none⟩ []).score = 34 := by
    norm_num [evaluate, baseScoreOf, avgVariantOf, variantAnalysisOf, nVariantsOf, pyRoundInt]
  have ha : (evaluate ⟨[], none⟩ []).avgVariant = 25 := by
    norm_num [evaluate, avgVariantOf, variantAnalysisOf]
  refine ⟨hs, ha, ?_, ?_⟩
  · rw [hs]
    norm_num
  · rw [ha]
    norm_num

/-- Claim C1 as amended: zero drivers and zero variants give
`base_score = 40`, internal `avg_variant = 25` (the fallback neutral
value, applied even with no variants), overall score
`round(0.6*40 + 0.4*25) = 34`, and an empty recommendations list. -/
theorem C1_zero_zero_amended :
    (evaluate ⟨[], none⟩ []).base = 40 ∧
    (evaluate ⟨[], none⟩ []).avgVariant = 25 ∧
    (evaluate ⟨[], none⟩ []).score = 34 ∧
    (evaluate ⟨[], none⟩ []).recommendations = [] := by
  refine ⟨?_, ?_, ?_, ?_⟩
  · norm_num [evaluate, baseScoreOf, nVariantsOf]
  · norm_num [evaluate, avgVariantOf, variantAnalysisOf]
  · norm_num [evaluate, baseScoreOf, avgVariantOf, variantAnalysisOf, nVariantsOf, pyRoundInt]
  · norm_num [evaluate, variantAnalysisOf, sortDesc]

/-- Counterexample to claim C3: a run with three scored variants (here via
the neutral no-drivers path) produces a recommendations list of length 1 —
only the top variant is emitted — not the claimed top three. -/
theorem C3_top3_counterexample :
    (evaluate ⟨[⟨some "a", none, none⟩, ⟨some "b", none, none⟩, ⟨some "c", none, none⟩], none⟩
      []).variant_analysis.length = 3 ∧
    (evaluate ⟨[⟨some "a", none, none⟩, ⟨some "b", none, none⟩, ⟨some "c", none, none⟩], none⟩
      []).recommendations.length = 1 ∧
    (evaluate ⟨[⟨some "a", none, none⟩, ⟨some "b", none, none⟩, ⟨some "c", none, none⟩], none⟩
      []).recommendations.length ≠ 3 := by
  refine ⟨?_, ?_, ?_⟩ <;>
    simp [evaluate, variantAnalysisOf, sortDesc, insertDesc]

/-- Claim C3 as amended: whenever at least one variant was scored, the
recommendations list contains exactly one entry, built from the top
VariantScore of the stable descending sort: the first maximum of the
variant-analysis list in input order (ties broken by stable input order),
with action `"run_ab_test"`, the variant id, its expected score, and
rationale equal to that variant's explanation string. -/
theorem C3_single_top_recommendation (co : CreativeOutput) (drivers : List InDriver)
    (hne : (evaluate co drivers).variant_analysis ≠ []) :
    ∃ top pre post,
      (evaluate co drivers).recommendations =
        [{ action := "run_ab_test", variant_id := top.variant_id,
           expected_score := top.score, rationale := top.explanation }] ∧
      (evaluate co drivers).variant_analysis = pre ++ top :: post ∧
      (∀ y ∈ pre, y.score < top.score) ∧
      (∀ y ∈ (evaluate co drivers).variant_analysis, y.score ≤ top.score) := by
  have hne' : variantAnalysisOf co drivers ≠ [] := hne
  cases hsd : sortDesc (variantAnalysisOf co drivers) with
  | nil => exact absurd ((sortDesc_eq_nil_iff _).mp hsd) hne'
  | cons h0 t =>
    have hh : (sortDesc (variantAnalysisOf co drivers)).head? = some h0 := by
      rw [hsd]
      rfl
    obtain ⟨pre, post, heq, hpre, hmax⟩ := sortDesc_head_first_max _ _ hh
    refine ⟨h0, pre, post, ?_, heq, hpre, fun y hy => hmax y hy⟩
    show (match (sortDesc (variantAnalysisOf co drivers)).take 3 with
      | [] => ([] : List Recommendation)
      | top :: _ =>
        [{ action := "run_ab_test", variant_id := top.variant_id,
           expected_score := top.score, rationale := top.explanation }]) = _
    rw [hsd, List.take_succ_cons]

/-- Witness for the amended C3 at a concrete run: one variant, no
drivers. -/
theorem C3_single_top_recommendation_witness :
    (evaluate ⟨[⟨some "a", none, none⟩], none⟩ []).variant_analysis ≠ [] ∧
    (∃ top pre post,
      (evaluate ⟨[⟨some "a", none, none⟩], none⟩ []).recommendations =
        [{ action := "run_ab_test", variant_id := top.variant_id,
           expected_score := top.score, rationale := top.explanation }] ∧
      (evaluate ⟨[⟨some "a", none, none⟩], none⟩ []).variant_analysis = pre ++ top :: post ∧
      (∀ y ∈ pre, y.score < top.score) ∧
      (∀ y ∈ (evaluate ⟨[⟨some "a", none, none⟩], none⟩ []).variant_analysis,
        y.score ≤ top.score)) :=
  ⟨by simp [evaluate, variantAnalysisOf],
    C3_single_top_recommendation ⟨[⟨some "a", none, none⟩], none⟩ []
      (by simp [evaluate, variantAnalysisOf])⟩

/-- A driver whose segment is the empty string (as arises when the
`segment` key is absent or empty): used to separate the claim's plain
substring matching from the code's truthiness-guarded matching. -/
def cDrv0 : InDriver :=
  { segment := some "", metric := some "roas", delta_pct := some (.num (.fin 100)),
    confidence := some (.num (.fin 1)), severity := some "medium", hypothesis := some "h0" }

/-- A CTR driver on segment `"adset:a"`. -/
def cDrv1 : InDriver :=
  { segment := some "adset:a", metric := some "ctr", delta_pct := some (.num (.fin 100)),
    confidence := some (.num (.fin 1)), severity := some "medium", hypothesis := some "h1" }

/-- A variant expecting `ctr` and targeting `"adset:a"`. -/
def cVar : Variant :=
  { id := some "v1", expected_metric := some "ctr", target_segment := some "adset:a" }

/-- Counterexample to claim C5: the empty string IS a substring of the
variant's target segment, so by the claim the variant must be matched to
the first DriverEvaluation (`cDrv0`, metric `roas`, yielding score 56.25);
but the code skips falsy segment strings (`if seg and seg in ...`) and
matches `cDrv1` instead, emitting score 86.25. -/
theorem C5_matching_counterexample :
    strIn "" (cVar.target_segment.getD "") = true ∧
    (validate_driver cDrv0).evSegment = some "" ∧
    ((evaluate ⟨[cVar], none⟩ [cDrv0, cDrv1]).variant_analysis.map (fun x => x.score)) =
      [345/4] ∧
    (score_variant cVar (validate_driver cDrv0)).score = 225/4 ∧
    ¬((345 : ℚ)/4 = 225/4) := by
  have hsev : score_severity "medium" = 1/2 := by
    unfold score_severity
    rw [if_neg (by decide), if_neg (by decide), if_pos rfl]
  have hde1 : validate_driver cDrv1 =
      { hypothesis := "h1", evSegment := some "adset:a", evMetric := some "ctr",
        impact := "high", impact_score := some (3/4), confidence := 7/8 } := by
    unfold validate_driver cDrv1
    norm_num [floatOf, hsev, combine2, clamp01, pyClamp01, minAbsDiv100,
      roundTo, pyRoundInt, min_def, max_def, DriverEval.mk.injEq]
  have hde0 : validate_driver cDrv0 =
      { hypothesis := "h0", evSegment := some "", evMetric := some "roas",
        impact := "high", impact_score := some (3/4), confidence := 7/8 } := by
    unfold validate_driver cDrv0
    norm_num [floatOf, hsev, combine2, clamp01, pyClamp01, minAbsDiv100,
      roundTo, pyRoundInt, min_def, max_def, DriverEval.mk.injEq]
  have hm0 : matchPred cVar (validate_driver cDrv0) = false := by
    rw [hde0]
    decide
  have hm1 : matchPred cVar (validate_driver cDrv1) = true := by
    rw [hde1]
    decide
  have hfind : ([cDrv0, cDrv1].map validate_driver).find? (fun de => matchPred cVar de) =
      some (validate_driver cDrv1) := by
    rw [List.map_cons, List.map_cons, List.map_nil,
      List.find?_cons_of_neg _ (by simp [hm0]), List.find?_cons_of_pos _ hm1]
  have hva : (evaluate ⟨[cVar], none⟩ [cDrv0, cDrv1]).variant_analysis =
      [score_variant cVar (validate_driver cDrv1)] := by
    show variantAnalysisOf ⟨[cVar], none⟩ [cDrv0, cDrv1] =
      [score_variant cVar (validate_driver cDrv1)]
    unfold variantAnalysisOf
    rw [if_neg (by simp)]
    simp only [List.filterMap_cons, List.filterMap_nil, hfind, Option.orElse, Option.map_some']
  have hsc1 : (score_variant cVar (validate_driver cDrv1)).score = 345/4 := by
    rw [hde1]
    norm_num [score_variant, cVar, roundTo, pyRoundInt, min_def, max_def]
  have hsc0 : (score_variant cVar (validate_driver cDrv0)).score = 225/4 := by
    have hstr : ¬((some "ctr" : Option String) = some "roas") := by decide
    rw [hde0]
    norm_num [score_variant, cVar, roundTo, pyRoundInt, min_def, max_def, hstr]
  refine ⟨by decide, by rw [hde0], ?_, hsc0, by norm_num⟩
  rw [hva, List.map_cons, List.map_nil, hsc1]

/-- Claim C5 as amended: variant matching requires the DriverEvaluation's
segment to be present and NON-EMPTY in addition to being a substring of
the variant's target segment (the code's truthiness test `if seg and seg
in ...`); with that one change, the matching rule (first match, fallback
to the first evaluation in list order), the neutral 25 / `"no drivers"`
fallback, the clamped-and-rounded score formula, and the
match/impact/confidence explanation are as claimed. -/
theorem C5_variant_scoring (co : CreativeOutput) (drivers : List InDriver) :
    ((evaluate co drivers).variant_analysis =
      if drivers = [] ∨ co.variants = [] then
        co.variants.map (fun v =>
          { variant_id := v.id, score := 25, explanation := "no drivers" })
      else
        co.variants.map (fun v =>
          score_variant v (((drivers.map validate_driver).find? (fun de => matchPred v de)).getD
            ((drivers.map validate_driver).headD degradedEval)))) ∧
    (∀ (v : Variant) (de : DriverEval), (score_variant v de).score =
      roundTo 2 (clamp01 (6/10 * (if v.expected_metric = de.evMetric then 1 else 1/2)
        + 4/10 * de.impact_score.getD 0 * de.confidence) * 100)) ∧
    (∀ (v : Variant) (de : DriverEval), (score_variant v de).explanation =
      explanationOf (if v.expected_metric = de.evMetric then 1 else 1/2)
        (de.impact_score.getD 0) de.confidence) := by
  refine ⟨?_, ?_, fun v de => rfl⟩
  · show variantAnalysisOf co drivers = _
    unfold variantAnalysisOf
    by_cases hcond : drivers = [] ∨ co.variants = []
    · rw [if_pos hcond, if_pos hcond]
    · rw [if_neg hcond, if_neg hcond]
      have hdne : drivers ≠ [] := fun h => hcond (Or.inl h)
      have hne : drivers.map validate_driver ≠ [] := by simpa using hdne
      obtain ⟨de0, rest, hde⟩ := List.exists_cons_of_ne_nil hne
      apply filterMap_eq_map_of_some
      intro v _
      rw [hde]
      cases hf : (de0 :: rest).find? (fun de => matchPred v de) with
      | none => simp [hf, Option.orElse]
      | some d1 => simp [hf, Option.orElse]
  · intro v de
    have hscale : clamp01 (6/10 * (if v.expected_metric = de.evMetric then 1 else 1/2)
        + 4/10 * de.impact_score.getD 0 * de.confidence) * 100 =
        max 0 (min 100 ((6/10 * (if v.expected_metric = de.evMetric then 1 else 1/2)
          + 4/10 * de.impact_score.getD 0 * de.confidence) * 100)) := by
      unfold clamp01
      rw [max_mul_of_nonneg _ _ (by norm_num : (0:ℚ) ≤ 100),
        min_mul_of_nonneg _ _ (by norm_num : (0:ℚ) ≤ 100), zero_mul, one_mul]
    rw [hscale]
    rfl

/-- Witness for C10: a run with one segment whose ROAS dropped 50%
(baseline 2, current 1) emits a ROAS driver whose confidence is the
rounded global-CTR-test confidence. -/
theorem C10_roas_confidence_is_global_witness :
    (⟨"adset:a", "roas", 2, 1, .fin (-50), none, none, "critical", 0,
        "landing_or_offer_issue"⟩ : Driver) ∈
      generateDrivers zeroStats ⟨0, 0, 0, 0, 0, 0, 0, 0⟩ [⟨"a", 0, 0, 10, 20, 0, 0, 10, 10⟩] ∧
    (⟨"adset:a", "roas", 2, 1, .fin (-50), none, none, "critical", 0,
        "landing_or_offer_issue"⟩ : Driver).metric = "roas" ∧
    (⟨"adset:a", "roas", 2, 1, .fin (-50), none, none, "critical", 0,
        "landing_or_offer_issue"⟩ : Driver).confidence =
      roundTo 3 (confidence_from_p (globalCtrTest zeroStats ⟨0, 0, 0, 0, 0, 0, 0, 0⟩).2) := by
  have hmem : (⟨"adset:a", "roas", 2, 1, .fin (-50), none, none, "critical", 0,
      "landing_or_offer_issue"⟩ : Driver) ∈
      generateDrivers zeroStats ⟨0, 0, 0, 0, 0, 0, 0, 0⟩ [⟨"a", 0, 0, 10, 20, 0, 0, 10, 10⟩] := by
    norm_num [generateDrivers, segDrivers, ctrDriverOf, roasDriverOf, ctrPctOf, roasPctOf,
      ctrOf, roasOf, pct_change, pyLt, severity_label,
      pyGe, pyAbs, confidence_from_p, globalCtrTest, proportion_z_test, zeroStats,
      roundTo, pyRoundInt, pyRoundN, Driver.mk.injEq]
    decide
  exact ⟨hmem, rfl,
    C10_roas_confidence_is_global zeroStats ⟨0, 0, 0, 0, 0, 0, 0, 0⟩
      [⟨"a", 0, 0, 10, 20, 0, 0, 10, 10⟩] _ hmem rfl⟩

end Engine
